import Mathlib

/-!
Verification of the k8s_vGateway benchmarking and test-execution subsystem.

This file gives a shallow embedding, in Lean 4, of the pure computational
core of the repository:

* `src/src/models/test_result.rs` — test-case catalog, statuses, results,
  round summaries;
* `src/src/benchmark/metrics.rs` — percentile / latency / throughput /
  error statistics and the metrics collector;
* `src/src/benchmark/runner.rs` — load patterns and worker spawning;
* `src/src/executor/parallel.rs` — cross-round aggregation.

Modelling conventions:

* Rust `f64` values are embedded as exact rationals (`ℚ`).  Every numeric
  fact proved below involves only arithmetic that is exact in both `f64`
  and `ℚ` or carries an explicit tolerance, so the translation is faithful
  for the properties at stake.
* Rust `u64` counters are embedded as `ℕ`: they only ever grow by 1 per
  recorded event, so 64-bit wrap-around is unreachable in any feasible
  execution and is not exercised by any claim.
* The `u32` rate arithmetic of `LoadPattern::rps_at` is embedded with an
  explicit `% 2 ^ 32`, because a single multiplication there can overflow
  for representable configurations.
* `Instant`-based wall-clock readings are made explicit: functions that
  read the clock take the elapsed duration (in seconds, as `ℚ`) as an
  argument.
* Rust `sort_by` over a total order is embedded as `List.insertionSort`
  (a stable comparison sort, like Rust's); the claims below depend only on
  sortedness and permutation, which any conforming sort satisfies.
-/

/-- Test execution status (`TestStatus` in `src/src/models/test_result.rs`). -/
inductive TestStatus where
  | Pass
  | Fail
  | Skip
  | Error
deriving DecidableEq, Repr

/-- The 17 Gateway API test cases (`TestCase` in `src/src/models/test_result.rs`). -/
inductive TestCase where
  | HostRouting
  | PathRouting
  | HeaderRouting
  | TlsTermination
  | HttpsRedirect
  | BackendTls
  | CanaryTraffic
  | RateLimiting
  | TimeoutRetry
  | SessionAffinity
  | UrlRewrite
  | HeaderModifier
  | CrossNamespace
  | GrpcRouting
  | HealthCheck
  | LoadTest
  | FailoverRecovery
deriving DecidableEq, Repr

namespace TestCase

/-- `TestCase::number` — the canonical ordinal 1–17 of each test case. -/
def number : TestCase → ℕ
  | HostRouting => 1
  | PathRouting => 2
  | HeaderRouting => 3
  | TlsTermination => 4
  | HttpsRedirect => 5
  | BackendTls => 6
  | CanaryTraffic => 7
  | RateLimiting => 8
  | TimeoutRetry => 9
  | SessionAffinity => 10
  | UrlRewrite => 11
  | HeaderModifier => 12
  | CrossNamespace => 13
  | GrpcRouting => 14
  | HealthCheck => 15
  | LoadTest => 16
  | FailoverRecovery => 17

/-- `TestCase::all` — the full catalog, in source order. -/
def all : List TestCase :=
  [HostRouting, PathRouting, HeaderRouting, TlsTermination, HttpsRedirect,
   BackendTls, CanaryTraffic, RateLimiting, TimeoutRetry, SessionAffinity,
   UrlRewrite, HeaderModifier, CrossNamespace, GrpcRouting, HealthCheck,
   LoadTest, FailoverRecovery]

/-- `TestCase::from_number` — parse an ordinal back into a test case.
The Rust argument is a `u8`; the embedding accepts any natural number,
which agrees with the `u8` behaviour on 0–255 and returns `none` on every
ordinal outside 1–17. -/
def from_number : ℕ → Option TestCase
  | 1 => some HostRouting
  | 2 => some PathRouting
  | 3 => some HeaderRouting
  | 4 => some TlsTermination
  | 5 => some HttpsRedirect
  | 6 => some BackendTls
  | 7 => some CanaryTraffic
  | 8 => some RateLimiting
  | 9 => some TimeoutRetry
  | 10 => some SessionAffinity
  | 11 => some UrlRewrite
  | 12 => some HeaderModifier
  | 13 => some CrossNamespace
  | 14 => some GrpcRouting
  | 15 => some HealthCheck
  | 16 => some LoadTest
  | 17 => some FailoverRecovery
  | _ => none

end TestCase

/-- A single test execution result (`TestResult` in
`src/src/models/test_result.rs`); the `details` JSON payload is omitted as
no computation in scope reads it. -/
structure TestResult where
  test_case : TestCase
  status : TestStatus
  duration_ms : ℕ
  message : Option String
deriving DecidableEq, Repr

namespace TestResult

/-- `TestResult::pass`. -/
def pass (tc : TestCase) (duration_ms : ℕ) : TestResult :=
  ⟨tc, TestStatus.Pass, duration_ms, none⟩

/-- `TestResult::fail`. -/
def fail (tc : TestCase) (duration_ms : ℕ) (message : String) : TestResult :=
  ⟨tc, TestStatus.Fail, duration_ms, some message⟩

/-- `TestResult::skip`. -/
def skip (tc : TestCase) (reason : String) : TestResult :=
  ⟨tc, TestStatus.Skip, 0, some reason⟩

/-- `TestResult::error`. -/
def error (tc : TestCase) (err : String) : TestResult :=
  ⟨tc, TestStatus.Error, 0, some err⟩

end TestResult

/-- Summary of one test round (`TestRoundSummary` in
`src/src/models/test_result.rs`). -/
structure TestRoundSummary where
  round : ℕ
  gateway : String
  total : ℕ
  passed : ℕ
  failed : ℕ
  skipped : ℕ
  errors : ℕ
  total_duration_ms : ℕ
  results : List TestResult
deriving DecidableEq, Repr

namespace TestRoundSummary

/-- `TestRoundSummary::new` — derive the counters from the result list. -/
def new (round : ℕ) (gateway : String) (results : List TestResult) : TestRoundSummary :=
  { round := round
    gateway := gateway
    total := results.length
    passed := results.countP (fun r => r.status == TestStatus.Pass)
    failed := results.countP (fun r => r.status == TestStatus.Fail)
    skipped := results.countP (fun r => r.status == TestStatus.Skip)
    errors := results.countP (fun r => r.status == TestStatus.Error)
    total_duration_ms := (results.map (fun r => r.duration_ms)).sum
    results := results }

/-- `TestRoundSummary::pass_rate` — percentage of passed over total,
skips included in the denominator. -/
def pass_rate (s : TestRoundSummary) : ℚ :=
  if s.total = 0 then 0 else ((s.passed : ℚ) / (s.total : ℚ)) * 100

end TestRoundSummary

/-! ### `src/src/benchmark/metrics.rs` — statistics engine -/

/-- Latency percentiles (`Percentiles` in `src/src/benchmark/metrics.rs`). -/
structure Percentiles where
  p50 : ℚ
  p90 : ℚ
  p95 : ℚ
  p99 : ℚ
  p999 : ℚ
deriving DecidableEq

/-- The `Default` derive of `Percentiles`: all fields zero. -/
instance : Inhabited Percentiles := ⟨⟨0, 0, 0, 0, 0⟩⟩

/-- The free function `percentile(sorted, p)` of
`src/src/benchmark/metrics.rs`.  The Rust `let` bindings are inlined:
`idx = (p / 100) * (len - 1)`, `lower = idx.floor() as usize`
(`as usize` on a non-negative float truncates, on a negative one saturates
to 0 — both are `Int.toNat ∘ Int.floor` here), `upper = idx.ceil() as usize`,
`fraction = idx - lower as f64`.  The in-bounds index reads `sorted[i]`
are rendered as `List.getD i 0`; in every branch the code reaches, the
index is in bounds, so the default is never consulted. -/
def percentile (sorted : List ℚ) (p : ℚ) : ℚ :=
  if sorted.isEmpty then 0
  else if sorted.length = 1 then sorted.headI
  else
    if sorted.length ≤ (⌈(p / 100) * ((sorted.length : ℚ) - 1)⌉).toNat then
      sorted.getD (sorted.length - 1) 0
    else
      sorted.getD (⌊(p / 100) * ((sorted.length : ℚ) - 1)⌋).toNat 0
          * (1 - ((p / 100) * ((sorted.length : ℚ) - 1)
                    - ((⌊(p / 100) * ((sorted.length : ℚ) - 1)⌋).toNat : ℚ)))
        + sorted.getD (⌈(p / 100) * ((sorted.length : ℚ) - 1)⌉).toNat 0
          * ((p / 100) * ((sorted.length : ℚ) - 1)
               - ((⌊(p / 100) * ((sorted.length : ℚ) - 1)⌋).toNat : ℚ))

/-- `Percentiles::from_sorted`. -/
def Percentiles.from_sorted (latencies : List ℚ) : Percentiles :=
  if latencies.isEmpty then default
  else
    { p50 := percentile latencies 50
      p90 := percentile latencies 90
      p95 := percentile latencies 95
      p99 := percentile latencies 99
      p999 := percentile latencies (999 / 10) }

/-- Latency statistics (`LatencyStats` in `src/src/benchmark/metrics.rs`).
The source stores `std_dev = variance.sqrt()`; square-rooting is a
function that is injective on the non-negative reals, so recording the
`variance` field instead preserves equality of `LatencyStats` values in
both directions and keeps the embedding inside exact arithmetic. -/
structure LatencyStats where
  min : ℚ
  max : ℚ
  mean : ℚ
  variance : ℚ
  percentiles : Percentiles
  count : ℕ
deriving DecidableEq

/-- The `Default` derive of `LatencyStats`: all fields zero. -/
instance : Inhabited LatencyStats := ⟨⟨0, 0, 0, 0, default, 0⟩⟩

/-- `LatencyStats::from_samples`.  Rust sorts a copy with
`sort_by(partial_cmp … )`, a stable comparison sort over the total order
on the samples; `List.insertionSort` is likewise a stable comparison
sort, so it produces the identical sorted list. -/
def LatencyStats.from_samples (samples : List ℚ) : LatencyStats :=
  if samples.isEmpty then default
  else
    let sorted := List.insertionSort (fun a b => a ≤ b) samples
    let mean := sorted.sum / (sorted.length : ℚ)
    { min := sorted.getD 0 0
      max := sorted.getD (sorted.length - 1) 0
      mean := mean
      variance := (sorted.map (fun x => (x - mean) ^ 2)).sum / (sorted.length : ℚ)
      percentiles := Percentiles.from_sorted sorted
      count := sorted.length }

/-- Throughput statistics (`ThroughputStats` in
`src/src/benchmark/metrics.rs`). -/
structure ThroughputStats where
  rps : ℚ
  success_rps : ℚ
  total_requests : ℕ
  successful_requests : ℕ
  failed_requests : ℕ
  duration_secs : ℚ
  success_rate : ℚ
deriving DecidableEq

/-- The `Default` derive of `ThroughputStats`. -/
instance : Inhabited ThroughputStats := ⟨⟨0, 0, 0, 0, 0, 0, 0⟩⟩

/-- `ThroughputStats::new`.  `duration.as_secs_f64()` is passed in
directly as `duration_secs : ℚ`.  The `u64` subtraction
`total - successful` is rendered as truncated `ℕ` subtraction; the claims
about it carry the precondition `successful ≤ total`, under which the two
agree.  Division by a zero duration is 0 in `ℚ` (f64 would give ±∞); no
claim evaluates at a zero duration. -/
def ThroughputStats.new (total successful : ℕ) (duration_secs : ℚ) : ThroughputStats :=
  { rps := (total : ℚ) / duration_secs
    success_rps := (successful : ℚ) / duration_secs
    total_requests := total
    successful_requests := successful
    failed_requests := total - successful
    duration_secs := duration_secs
    success_rate := if 0 < total then (successful : ℚ) / (total : ℚ) else 0 }

/-- Error statistics (`ErrorStats` in `src/src/benchmark/metrics.rs`).
`u64` counters are embedded as `ℕ` (each call adds 1; 64-bit wrap-around
is unreachable). -/
structure ErrorStats where
  connection_errors : ℕ
  timeout_errors : ℕ
  client_errors : ℕ
  server_errors : ℕ
  other_errors : ℕ
deriving DecidableEq

/-- The `Default` derive of `ErrorStats`: all counters zero. -/
instance : Inhabited ErrorStats := ⟨⟨0, 0, 0, 0, 0⟩⟩

namespace ErrorStats

/-- `ErrorStats::total`. -/
def total (e : ErrorStats) : ℕ :=
  e.connection_errors + e.timeout_errors + e.client_errors + e.server_errors + e.other_errors

/-- `ErrorStats::record` — classification priority
timeout > connection error > status bucket > other. -/
def record (e : ErrorStats) (status_code : Option ℕ) (is_timeout is_connection_error : Bool) :
    ErrorStats :=
  if is_timeout then
    { e with timeout_errors := e.timeout_errors + 1 }
  else if is_connection_error then
    { e with connection_errors := e.connection_errors + 1 }
  else
    match status_code with
    | some code =>
        if 400 ≤ code ∧ code ≤ 499 then { e with client_errors := e.client_errors + 1 }
        else if 500 ≤ code ∧ code ≤ 599 then { e with server_errors := e.server_errors + 1 }
        else { e with other_errors := e.other_errors + 1 }
    | none => { e with other_errors := e.other_errors + 1 }

end ErrorStats

/-- Fold `ErrorStats::record` over a finite sequence of calls
`(status_code, is_timeout, is_connection_error)`, oldest first. -/
def ErrorStats.recordAll (e : ErrorStats) (calls : List (Option ℕ × Bool × Bool)) : ErrorStats :=
  calls.foldl (fun acc c => acc.record c.1 c.2.1 c.2.2) e

/-- Combined metrics (`Metrics` in `src/src/benchmark/metrics.rs`). -/
structure Metrics where
  latency : LatencyStats
  throughput : ThroughputStats
  errors : ErrorStats
deriving DecidableEq

/-- The mutable state of `MetricsCollector`
(`src/src/benchmark/metrics.rs`).  The `start_time : Instant` field is
not part of the state; every operation of the source that reads the
clock (`snapshot`, `finalize`, `elapsed`, `current_rps`) instead takes
the wall-clock elapsed duration since construction, in seconds, as an
explicit `ℚ` argument. -/
structure MetricsCollector where
  latencies : List ℚ
  success_count : ℕ
  fail_count : ℕ
  errors : ErrorStats
deriving DecidableEq

namespace MetricsCollector

/-- `MetricsCollector::new`. -/
def new : MetricsCollector := ⟨[], 0, 0, default⟩

/-- `MetricsCollector::record_success`. -/
def record_success (c : MetricsCollector) (latency_ms : ℚ) : MetricsCollector :=
  { c with latencies := c.latencies ++ [latency_ms], success_count := c.success_count + 1 }

/-- `MetricsCollector::record_failure`. -/
def record_failure (c : MetricsCollector) (latency_ms : ℚ) (status_code : Option ℕ)
    (is_timeout is_connection_error : Bool) : MetricsCollector :=
  { c with latencies := c.latencies ++ [latency_ms]
           fail_count := c.fail_count + 1
           errors := c.errors.record status_code is_timeout is_connection_error }

/-- `MetricsCollector::record` — success/failure dispatcher. -/
def record (c : MetricsCollector) (latency_ms : ℚ) (success : Bool)
    (status_code : Option ℕ) : MetricsCollector :=
  if success then c.record_success latency_ms
  else c.record_failure latency_ms status_code false false

/-- `MetricsCollector::snapshot`.  `elapsed_secs` is the wall-clock
elapsed duration `self.start_time.elapsed()` at the moment of the call. -/
def snapshot (c : MetricsCollector) (elapsed_secs : ℚ) : Metrics :=
  { latency := LatencyStats.from_samples c.latencies
    throughput := ThroughputStats.new (c.success_count + c.fail_count) c.success_count elapsed_secs
    errors := c.errors }

/-- `MetricsCollector::finalize` — textually the same computation as
`snapshot`, consuming the collector. -/
def finalize (c : MetricsCollector) (elapsed_secs : ℚ) : Metrics :=
  { latency := LatencyStats.from_samples c.latencies
    throughput := ThroughputStats.new (c.success_count + c.fail_count) c.success_count elapsed_secs
    errors := c.errors }

/-- `MetricsCollector::request_count`. -/
def request_count (c : MetricsCollector) : ℕ := c.success_count + c.fail_count

end MetricsCollector

/-- One mutating call on a `MetricsCollector`, for reasoning about
arbitrary finite write sequences. -/
inductive CollectorOp where
  | success (latency_ms : ℚ)
  | failure (latency_ms : ℚ) (status_code : Option ℕ) (is_timeout is_connection_error : Bool)
  | record (latency_ms : ℚ) (succeeded : Bool) (status_code : Option ℕ)

/-- Apply one mutating call. -/
def applyOp (c : MetricsCollector) : CollectorOp → MetricsCollector
  | CollectorOp.success l => c.record_success l
  | CollectorOp.failure l sc t conn => c.record_failure l sc t conn
  | CollectorOp.record l s sc => c.record l s sc

/-- Apply a finite sequence of mutating calls, oldest first. -/
def applyOps (c : MetricsCollector) (ops : List CollectorOp) : MetricsCollector :=
  ops.foldl applyOp c

/-! ### `src/src/benchmark/runner.rs` — load patterns and workers -/

/-- `2 ^ 32`, the modulus of Rust `u32` arithmetic. -/
def u32Mod : ℕ := 2 ^ 32

/-- The Rust cast `x as u32` applied to a non-NaN `f64`: truncation
toward zero with saturation at the two ends of the `u32` range. -/
def toU32 (q : ℚ) : ℕ :=
  if q ≤ 0 then 0 else min (⌊q⌋).toNat (u32Mod - 1)

/-- The `steps` computation of the `Step` arm of `LoadPattern::rps_at`:
`(elapsed_secs / step_interval_secs as f64) as u32`.  A zero interval
makes the f64 quotient `NaN` (0/0, cast = 0) or `±∞` (cast saturates);
`ℚ` division by zero would instead give 0, so that case is made
explicit. -/
def stepCount (step_interval_secs : ℕ) (elapsed_secs : ℚ) : ℕ :=
  if step_interval_secs = 0 then
    (if elapsed_secs ≤ 0 then 0 else u32Mod - 1)
  else toU32 (elapsed_secs / (step_interval_secs : ℚ))

/-- Load pattern (`LoadPattern` in `src/src/benchmark/runner.rs`); all
`u32` fields are naturals below `u32Mod`. -/
inductive LoadPattern where
  | Constant (rps : ℕ)
  | Ramp (start_rps end_rps : ℕ) (duration_secs : ℕ)
  | Step (start_rps step_rps : ℕ) (step_interval_secs : ℕ) (max_rps : ℕ)
  | Spike (base_rps spike_rps : ℕ) (spike_duration_secs : ℕ)
  | Max (concurrency : ℕ)

/-- `LoadPattern::rps_at`.  In the `Step` arm the `u32` sum
`start_rps + steps * step_rps` is taken modulo `2 ^ 32`, the release-mode
wrap-around semantics of Rust `u32` arithmetic.  The zero-duration f64
edge cases of the `Ramp` arm are not modelled exactly (no claim exercises
`Ramp` or `Spike`). -/
def LoadPattern.rps_at (p : LoadPattern) (elapsed_secs total_duration_secs : ℚ) : ℕ :=
  match p with
  | LoadPattern.Constant rps => rps
  | LoadPattern.Ramp start_rps end_rps duration_secs =>
      toU32 ((start_rps : ℚ)
        + (((end_rps : ℚ) - (start_rps : ℚ)) * min (elapsed_secs / (duration_secs : ℚ)) 1))
  | LoadPattern.Step start_rps step_rps step_interval_secs max_rps =>
      min ((start_rps + stepCount step_interval_secs elapsed_secs * step_rps) % u32Mod) max_rps
  | LoadPattern.Spike base_rps spike_rps spike_duration_secs =>
      if total_duration_secs / 3 ≤ elapsed_secs
          ∧ elapsed_secs < total_duration_secs / 3 + (spike_duration_secs : ℚ) then
        spike_rps
      else base_rps
  | LoadPattern.Max _ => u32Mod - 1

/-- Number of workers spawned by `BenchmarkRunner::run_rate_limited`:
its `for _ in 0..concurrency` loop runs
`self.config.concurrency.min(100)` times
(`src/src/benchmark/runner.rs`, line 334). -/
def rateLimitedWorkerCount (configured_concurrency : ℕ) : ℕ :=
  min configured_concurrency 100

/-- Number of workers spawned by `BenchmarkRunner::run_max_throughput`:
its `for _ in 0..concurrency` loop runs `concurrency` times, where
`concurrency` is the `Max` pattern's field passed through by
`run_load_test`, with no ceiling applied
(`src/src/benchmark/runner.rs`, lines 309–311 and 407). -/
def maxThroughputWorkerCount (max_pattern_concurrency : ℕ) : ℕ :=
  max_pattern_concurrency

/-! ### `src/src/executor/parallel.rs` — cross-round aggregation -/

/-- Per-test statistics across rounds (`TestStats` in
`src/src/executor/parallel.rs`). -/
structure TestStats where
  passes : ℕ
  failures : ℕ
  skips : ℕ
  errors : ℕ
  total_duration_ms : ℕ
deriving DecidableEq

/-- The `Default` derive of `TestStats`: all counters zero. -/
instance : Inhabited TestStats := ⟨⟨0, 0, 0, 0, 0⟩⟩

/-- The per-result update of the aggregation loop of
`BatchRunner::aggregate_results`: bump the matching status counter and
accumulate the duration. -/
def TestStats.bump (s : TestStats) (status : TestStatus) (duration_ms : ℕ) : TestStats :=
  let s1 :=
    match status with
    | TestStatus.Pass => { s with passes := s.passes + 1 }
    | TestStatus.Fail => { s with failures := s.failures + 1 }
    | TestStatus.Skip => { s with skips := s.skips + 1 }
    | TestStatus.Error => { s with errors := s.errors + 1 }
  { s1 with total_duration_ms := s1.total_duration_ms + duration_ms }

/-- The entry of `test_stats` for one test case after
`BatchRunner::aggregate_results` has walked every result of every round
summary (the `HashMap` keyed by `TestCase` is viewed one key at a time). -/
def aggTestStats (summaries : List TestRoundSummary) (tc : TestCase) : TestStats :=
  summaries.foldl
    (fun acc s =>
      s.results.foldl
        (fun acc r => if r.test_case = tc then acc.bump r.status r.duration_ms else acc)
        acc)
    default

/-- The pass-rate computation of `BatchRunner::aggregate_results`:
`passes / (passes + failures + errors) * 100`, skips excluded from the
denominator, 0 when the denominator is 0. -/
def TestStats.passRate (s : TestStats) : ℚ :=
  if 0 < s.passes + s.failures + s.errors then
    ((s.passes : ℚ) / ((s.passes + s.failures + s.errors : ℕ) : ℚ)) * 100
  else 0

/-- The `test_pass_rates` entry of `AggregateResult` for one test case. -/
def test_pass_rates (summaries : List TestRoundSummary) (tc : TestCase) : ℚ :=
  (aggTestStats summaries tc).passRate

/-- `AggregateResult::flaky_tests`: collect the `(test, rate)` entries
(in the unspecified `HashMap` iteration order, so the input list is
arbitrary) and sort ascending by rate.  Rust uses the stable `sort_by`;
`List.insertionSort` is likewise stable. -/
def flaky_tests (entries : List (TestCase × ℚ)) : List (TestCase × ℚ) :=
  List.insertionSort (fun a b => a.2 ≤ b.2) entries

/-- `AggregateResult::stable_tests`: the tests whose rate is `≥ 100`. -/
def stable_tests (entries : List (TestCase × ℚ)) : List TestCase :=
  (entries.filter (fun e => 100 ≤ e.2)).map Prod.fst

/-- The sorted sample list `[1.0, …, 100.0]` of the percentile claim. -/
def samples100 : List ℚ := (List.range 100).map (fun i : ℕ => (i : ℚ) + 1)

/-! ## Supporting lemmas -/

theorem ErrorStats.total_record (e : ErrorStats) (sc : Option ℕ) (t conn : Bool) :
    (e.record sc t conn).total = e.total + 1 := by
  cases t <;> cases conn <;> rcases sc with _ | code <;>
    simp only [ErrorStats.record, ErrorStats.total] <;>
    try split_ifs <;> simp [ErrorStats.total] <;> omega

theorem ErrorStats.total_recordAll (e : ErrorStats) (calls : List (Option ℕ × Bool × Bool)) :
    (e.recordAll calls).total = e.total + calls.length := by
  induction calls generalizing e with
  | nil => simp [ErrorStats.recordAll]
  | cons c t ih =>
    simp only [ErrorStats.recordAll, List.foldl_cons] at *
    rw [ih, ErrorStats.total_record, List.length_cons]
    omega

theorem applyOp_inv (c : MetricsCollector) (op : CollectorOp)
    (h1 : c.latencies.length = c.success_count + c.fail_count)
    (h2 : c.errors.total = c.fail_count) :
    (applyOp c op).latencies.length = (applyOp c op).success_count + (applyOp c op).fail_count
    ∧ (applyOp c op).errors.total = (applyOp c op).fail_count := by
  cases op with
  | success l =>
    simp [applyOp, MetricsCollector.record_success, h1, h2]
    omega
  | failure l sc t conn =>
    simp [applyOp, MetricsCollector.record_failure, ErrorStats.total_record, h1, h2]
    omega
  | record l s sc =>
    cases s <;>
      simp [applyOp, MetricsCollector.record, MetricsCollector.record_success,
        MetricsCollector.record_failure, ErrorStats.total_record, h1, h2] <;>
      omega

theorem applyOps_inv (ops : List CollectorOp) (c : MetricsCollector)
    (h1 : c.latencies.length = c.success_count + c.fail_count)
    (h2 : c.errors.total = c.fail_count) :
    (applyOps c ops).latencies.length
        = (applyOps c ops).success_count + (applyOps c ops).fail_count
    ∧ (applyOps c ops).errors.total = (applyOps c ops).fail_count := by
  induction ops generalizing c with
  | nil => exact ⟨h1, h2⟩
  | cons op t ih =>
    have h := applyOp_inv c op h1 h2
    simpa [applyOps] using ih (applyOp c op) h.1 h.2

theorem TestCase.from_number_add18 (m : ℕ) : TestCase.from_number (m + 18) = none := rfl

theorem samples100_length : samples100.length = 100 := by
  simp only [samples100, List.length_map, List.length_range]

theorem samples100_getD (k : ℕ) (h : k < 100) : samples100.getD k 0 = (k : ℚ) + 1 := by
  rw [List.getD_eq_getElem _ _ (by rw [samples100_length]; exact h)]
  simp [samples100]

theorem percentile_nil (p : ℚ) : percentile [] p = 0 := rfl

theorem percentile_single (x p : ℚ) : percentile [x] p = x := rfl

theorem percentile_clamp (sorted : List ℚ) (p : ℚ) (h2 : 2 ≤ sorted.length)
    (hup : sorted.length ≤ (⌈(p / 100) * ((sorted.length : ℚ) - 1)⌉).toNat) :
    percentile sorted p = sorted.getD (sorted.length - 1) 0 := by
  have hne : sorted.isEmpty = false := by
    cases sorted with
    | nil => simp at h2
    | cons a t => rfl
  have hlen : ¬ sorted.length = 1 := by omega
  unfold percentile
  rw [hne]
  simp only [Bool.false_eq_true, if_false, if_neg hlen, if_pos hup]

theorem percentile_interp (sorted : List ℚ) (p : ℚ) (h2 : 2 ≤ sorted.length)
    (hup : (⌈(p / 100) * ((sorted.length : ℚ) - 1)⌉).toNat < sorted.length) :
    percentile sorted p
      = sorted.getD (⌊(p / 100) * ((sorted.length : ℚ) - 1)⌋).toNat 0
          * (1 - ((p / 100) * ((sorted.length : ℚ) - 1)
                    - ((⌊(p / 100) * ((sorted.length : ℚ) - 1)⌋).toNat : ℚ)))
        + sorted.getD (⌈(p / 100) * ((sorted.length : ℚ) - 1)⌉).toNat 0
          * ((p / 100) * ((sorted.length : ℚ) - 1)
               - ((⌊(p / 100) * ((sorted.length : ℚ) - 1)⌋).toNat : ℚ)) := by
  have hne : sorted.isEmpty = false := by
    cases sorted with
    | nil => simp at h2
    | cons a t => rfl
  have hlen : ¬ sorted.length = 1 := by omega
  unfold percentile
  rw [hne]
  simp only [Bool.false_eq_true, if_false, if_neg hlen, if_neg (not_le.mpr hup)]

theorem percentile_samples100_eval (p : ℚ) (k : ℕ) (hk : k + 1 < 100)
    (hfl : ⌊(p / 100) * ((samples100.length : ℚ) - 1)⌋ = (k : ℤ))
    (hcl : ⌈(p / 100) * ((samples100.length : ℚ) - 1)⌉ = (k : ℤ) + 1) :
    percentile samples100 p
      = ((k : ℚ) + 1) * (1 - ((p / 100) * 99 - (k : ℚ)))
        + ((k : ℚ) + 2) * ((p / 100) * 99 - (k : ℚ)) := by
  have h2 : 2 ≤ samples100.length := by rw [samples100_length]; omega
  have hup : (⌈(p / 100) * ((samples100.length : ℚ) - 1)⌉).toNat < samples100.length := by
    rw [hcl, samples100_length]
    rw [show ((k : ℤ) + 1) = ((k + 1 : ℕ) : ℤ) by push_cast; ring, Int.toNat_natCast]
    exact hk
  rw [percentile_interp samples100 p h2 hup, hfl, hcl]
  rw [show ((k : ℤ) + 1) = ((k + 1 : ℕ) : ℤ) by push_cast; ring, Int.toNat_natCast,
    Int.toNat_natCast]
  rw [samples100_getD k (by omega), samples100_getD (k + 1) hk]
  rw [samples100_length]
  push_cast
  ring

theorem percentile_samples100_50 : percentile samples100 50 = 101 / 2 := by
  have h := percentile_samples100_eval 50 49 (by omega)
    (by rw [samples100_length]; push_cast; norm_num)
    (by rw [samples100_length]; push_cast
        rw [Int.ceil_eq_iff]
        norm_num)
  rw [h]; norm_num

theorem percentile_samples100_90 : percentile samples100 90 = 901 / 10 := by
  have h := percentile_samples100_eval 90 89 (by omega)
    (by rw [samples100_length]; push_cast; norm_num)
    (by rw [samples100_length]; push_cast
        rw [Int.ceil_eq_iff]
        norm_num)
  rw [h]; norm_num

theorem percentile_samples100_95 : percentile samples100 95 = 1901 / 20 := by
  have h := percentile_samples100_eval 95 94 (by omega)
    (by rw [samples100_length]; push_cast; norm_num)
    (by rw [samples100_length]; push_cast
        rw [Int.ceil_eq_iff]
        norm_num)
  rw [h]; norm_num

theorem percentile_samples100_99 : percentile samples100 99 = 9901 / 100 := by
  have h := percentile_samples100_eval 99 98 (by omega)
    (by rw [samples100_length]; push_cast; norm_num)
    (by rw [samples100_length]; push_cast
        rw [Int.ceil_eq_iff]
        norm_num)
  rw [h]; norm_num

theorem toU32_mono {a b : ℚ} (h : a ≤ b) : toU32 a ≤ toU32 b := by
  unfold toU32
  split_ifs with ha hb hb
  · exact Nat.zero_le _
  · exact Nat.zero_le _
  · exact absurd (le_trans h hb) ha
  · exact min_le_min (Int.toNat_le_toNat (Int.floor_mono h)) (le_refl _)

theorem stepCount_mono (interval : ℕ) {a b : ℚ} (h : a ≤ b) :
    stepCount interval a ≤ stepCount interval b := by
  unfold stepCount
  split_ifs with hi ha hb hb
  · exact le_refl 0
  · exact Nat.zero_le _
  · exact absurd (le_trans h hb) ha
  · exact le_refl _
  · apply toU32_mono
    have hipos : (0 : ℚ) < (interval : ℚ) := by
      exact_mod_cast Nat.pos_of_ne_zero hi
    gcongr

theorem TestStats.passRate_le_hundred (s : TestStats) : s.passRate ≤ 100 := by
  unfold TestStats.passRate
  split_ifs with h
  · have hd : (0 : ℚ) < ((s.passes + s.failures + s.errors : ℕ) : ℚ) := by exact_mod_cast h
    have h1 : ((s.passes : ℚ)) / ((s.passes + s.failures + s.errors : ℕ) : ℚ) ≤ 1 :=
      (div_le_one hd).mpr
        (by exact_mod_cast (by omega : s.passes ≤ s.passes + s.failures + s.errors))
    linarith
  · norm_num

theorem flaky_tests_sorted_perm (entries : List (TestCase × ℚ)) :
    List.Sorted (fun a b : TestCase × ℚ => a.2 ≤ b.2) (flaky_tests entries)
    ∧ (flaky_tests entries).Perm entries := by
  haveI h1 : IsTotal (TestCase × ℚ) (fun a b => a.2 ≤ b.2) := ⟨fun a b => le_total a.2 b.2⟩
  haveI h2 : IsTrans (TestCase × ℚ) (fun a b => a.2 ≤ b.2) :=
    ⟨fun a b c hab hbc => le_trans hab hbc⟩
  exact ⟨List.sorted_insertionSort _ entries, List.perm_insertionSort _ entries⟩

theorem stable_tests_spec (entries : List (TestCase × ℚ))
    (hall : ∀ e ∈ entries, e.2 ≤ 100) :
    stable_tests entries = (entries.filter (fun e => e.2 = 100)).map Prod.fst := by
  unfold stable_tests
  congr 1
  apply List.filter_congr
  intro e he
  rw [decide_eq_decide]
  exact ⟨fun h => le_antisymm (hall e he) h, fun h => le_of_eq h.symm⟩

/-! ## Claims -/

/-- C1: `percentile` on a sorted sample list computes linear interpolation
between the two bracketing order statistics at rank `p/100 * (n-1)`: an
empty list yields 0, a one-element list yields that element, a rank whose
upper index reaches the length clamps to the last element, and otherwise
the result is `sorted[lower]*(1-fraction) + sorted[upper]*fraction`; for
the samples `[1.0, …, 100.0]`, p50, p90, p95 and p99 are within 1 of
50, 90, 95 and 99 respectively. -/
theorem C1_percentile_linear_interpolation :
    (∀ p : ℚ, percentile [] p = 0)
    ∧ (∀ x p : ℚ, percentile [x] p = x)
    ∧ (∀ (sorted : List ℚ) (p : ℚ), 2 ≤ sorted.length →
        sorted.length ≤ (⌈(p / 100) * ((sorted.length : ℚ) - 1)⌉).toNat →
        percentile sorted p = sorted.getD (sorted.length - 1) 0)
    ∧ (∀ (sorted : List ℚ) (p : ℚ), 2 ≤ sorted.length →
        (⌈(p / 100) * ((sorted.length : ℚ) - 1)⌉).toNat < sorted.length →
        percentile sorted p
          = sorted.getD (⌊(p / 100) * ((sorted.length : ℚ) - 1)⌋).toNat 0
              * (1 - ((p / 100) * ((sorted.length : ℚ) - 1)
                        - ((⌊(p / 100) * ((sorted.length : ℚ) - 1)⌋).toNat : ℚ)))
            + sorted.getD (⌈(p / 100) * ((sorted.length : ℚ) - 1)⌉).toNat 0
              * ((p / 100) * ((sorted.length : ℚ) - 1)
                   - ((⌊(p / 100) * ((sorted.length : ℚ) - 1)⌋).toNat : ℚ)))
    ∧ |(Percentiles.from_sorted samples100).p50 - 50| ≤ 1
    ∧ |(Percentiles.from_sorted samples100).p90 - 90| ≤ 1
    ∧ |(Percentiles.from_sorted samples100).p95 - 95| ≤ 1
    ∧ |(Percentiles.from_sorted samples100).p99 - 99| ≤ 1 := by
  have hne : samples100.isEmpty = false := rfl
  have hfs : Percentiles.from_sorted samples100
      = { p50 := percentile samples100 50, p90 := percentile samples100 90,
          p95 := percentile samples100 95, p99 := percentile samples100 99,
          p999 := percentile samples100 (999 / 10) } := by
    unfold Percentiles.from_sorted
    rw [hne]
    simp
  refine ⟨percentile_nil, percentile_single, percentile_clamp, percentile_interp,
    ?_, ?_, ?_, ?_⟩ <;> rw [hfs]
  · rw [percentile_samples100_50]; norm_num [abs_le]
  · rw [percentile_samples100_90]; norm_num [abs_le]
  · rw [percentile_samples100_95]; norm_num [abs_le]
  · rw [percentile_samples100_99]; norm_num [abs_le]

/-- C1 witness: the clamp branch of `C1_percentile_linear_interpolation`
instantiated at the concrete input `sorted = [1, 2]`, `p = 200`. -/
theorem C1_witness :
    2 ≤ ([1, 2] : List ℚ).length
    ∧ ([1, 2] : List ℚ).length
        ≤ (⌈((200 : ℚ) / 100) * ((([1, 2] : List ℚ).length : ℚ) - 1)⌉).toNat
    ∧ percentile [1, 2] 200 = 2 := by
  have h1 : 2 ≤ ([1, 2] : List ℚ).length := by norm_num
  have h2 : ([1, 2] : List ℚ).length
      ≤ (⌈((200 : ℚ) / 100) * ((([1, 2] : List ℚ).length : ℚ) - 1)⌉).toNat := by
    have hc : ⌈((200 : ℚ) / 100) * ((([1, 2] : List ℚ).length : ℚ) - 1)⌉ = 2 := by
      rw [Int.ceil_eq_iff]
      norm_num
    rw [hc]
    norm_num
  have h3 := C1_percentile_linear_interpolation.2.2.1 [1, 2] 200 h1 h2
  exact ⟨h1, h2, by rw [h3]; rfl⟩

/-- C2 counterexample: the claim says repeated `snapshot()` calls with no
intervening writes yield bit-identical `Metrics`.  The code recomputes
the throughput from the wall-clock elapsed duration at each call, so the
same collector state snapshotted at elapsed times 1 s and 2 s yields
different `Metrics` (the `duration_secs` fields are 1 and 2). -/
theorem C2_counterexample :
    (MetricsCollector.new.record_success 5).snapshot 1
      ≠ (MetricsCollector.new.record_success 5).snapshot 2 := by
  intro h
  have h2 := congrArg (fun m => m.throughput.duration_secs) h
  simp only [MetricsCollector.snapshot, ThroughputStats.new] at h2
  norm_num at h2

/-- C2 (amended): `finalize()` computes exactly the same `Metrics` as a
`snapshot()` taken at the same wall-clock instant, and snapshots of an
unchanged collector taken at any two instants agree on every component
except the duration-derived throughput fields: the latency statistics,
the error statistics, and the request counters and success rate inside
the throughput are identical across calls. -/
theorem C2_snapshot_finalize_amended :
    (∀ (c : MetricsCollector) (elapsed_secs : ℚ),
        c.finalize elapsed_secs = c.snapshot elapsed_secs)
    ∧ (∀ (c : MetricsCollector) (e1 e2 : ℚ),
        (c.snapshot e1).latency = (c.snapshot e2).latency
        ∧ (c.snapshot e1).errors = (c.snapshot e2).errors
        ∧ (c.snapshot e1).throughput.total_requests
            = (c.snapshot e2).throughput.total_requests
        ∧ (c.snapshot e1).throughput.successful_requests
            = (c.snapshot e2).throughput.successful_requests
        ∧ (c.snapshot e1).throughput.failed_requests
            = (c.snapshot e2).throughput.failed_requests
        ∧ (c.snapshot e1).throughput.success_rate
            = (c.snapshot e2).throughput.success_rate) :=
  ⟨fun c e => rfl, fun c e1 e2 => ⟨rfl, rfl, rfl, rfl, rfl, rfl⟩⟩

/-- C3: `ErrorStats::record` classifies with fixed priority
timeout > connection error > HTTP status bucket > other: a timeout call
bumps `timeout_errors` whatever status code accompanies it; 404 bumps
`client_errors`; 500 bumps `server_errors`; `(None, timeout)` and
`(None, conn)` bump their distinct counters; every call bumps exactly one
of the five buckets, so `total()` equals the number of `record` calls. -/
theorem C3_error_classification :
    (∀ (e : ErrorStats) (sc : Option ℕ) (conn : Bool),
        (e.record sc true conn).timeout_errors = e.timeout_errors + 1)
    ∧ (∀ e : ErrorStats, (e.record (some 404) false false).client_errors = e.client_errors + 1)
    ∧ (∀ e : ErrorStats, (e.record (some 500) false false).server_errors = e.server_errors + 1)
    ∧ (∀ e : ErrorStats, (e.record none true false).timeout_errors = e.timeout_errors + 1)
    ∧ (∀ e : ErrorStats,
        (e.record none false true).connection_errors = e.connection_errors + 1)
    ∧ (∀ (e : ErrorStats) (sc : Option ℕ) (t conn : Bool),
        (e.record sc t conn).total = e.total + 1)
    ∧ (∀ calls : List (Option ℕ × Bool × Bool),
        (ErrorStats.recordAll default calls).total = calls.length) := by
  refine ⟨?_, ?_, ?_, ?_, ?_, ?_, ?_⟩
  · intro e sc conn; simp [ErrorStats.record]
  · intro e; simp [ErrorStats.record]
  · intro e; simp [ErrorStats.record]
  · intro e; simp [ErrorStats.record]
  · intro e; simp [ErrorStats.record]
  · exact ErrorStats.total_record
  · intro calls
    rw [ErrorStats.total_recordAll]
    simp [ErrorStats.total, default]

/-- C4 counterexample: the claim says `rps_at` for the `Step` pattern
always equals `min(start_rps + steps*step_rps, max_rps)` and is monotone
non-decreasing over `[0, total_duration]`.  With the representable
configuration `Step{start: 0, step: 2^31, interval: 1, max: u32::MAX}`
the `u32` product overflows at `elapsed = 2`: the code yields 0 where the
claimed formula yields `2^32 - 1`, and the rate drops from `2^31` at
`elapsed = 1` to 0 at `elapsed = 2`, violating monotonicity. -/
theorem C4_counterexample :
    (LoadPattern.Step 0 (2 ^ 31) 1 (2 ^ 32 - 1)).rps_at 2 2 = 0
    ∧ min (0 + 2 * 2 ^ 31) (2 ^ 32 - 1) = 2 ^ 32 - 1
    ∧ stepCount 1 2 = 2
    ∧ (LoadPattern.Step 0 (2 ^ 31) 1 (2 ^ 32 - 1)).rps_at 1 2 = 2 ^ 31
    ∧ ¬ (LoadPattern.Step 0 (2 ^ 31) 1 (2 ^ 32 - 1)).rps_at 1 2
          ≤ (LoadPattern.Step 0 (2 ^ 31) 1 (2 ^ 32 - 1)).rps_at 2 2 := by
  have hs2 : stepCount 1 2 = 2 := by
    rw [stepCount]
    norm_num [toU32, u32Mod]
    decide
  have hs1 : stepCount 1 1 = 1 := by
    rw [stepCount]
    norm_num [toU32, u32Mod]
  have h2 : (LoadPattern.Step 0 (2 ^ 31) 1 (2 ^ 32 - 1)).rps_at 2 2 = 0 := by
    rw [LoadPattern.rps_at, hs2]
    norm_num [u32Mod]
  have h1 : (LoadPattern.Step 0 (2 ^ 31) 1 (2 ^ 32 - 1)).rps_at 1 2 = 2 ^ 31 := by
    rw [LoadPattern.rps_at, hs1]
    norm_num [u32Mod]
  refine ⟨h2, by norm_num, hs2, h1, ?_⟩
  rw [h1, h2]
  norm_num

/-- C4 (amended): whenever the 32-bit sum `start_rps + steps*step_rps`
does not overflow, `rps_at` for the `Step` pattern equals
`min(start_rps + floor(elapsed/step_interval_secs)*step_rps, max_rps)`
and is monotone non-decreasing in `elapsed`; in particular
`Step{start: 100, step: 50, interval: 10, max: 300}` gives
`rps_at(0, 60) = 100`, `rps_at(10, 60) = 150`, `rps_at(50, 60) = 300`. -/
theorem C4_step_pattern_amended :
    (∀ (start_rps step_rps step_interval_secs max_rps : ℕ) (e total : ℚ),
      start_rps + stepCount step_interval_secs e * step_rps < u32Mod →
      (LoadPattern.Step start_rps step_rps step_interval_secs max_rps).rps_at e total
        = min (start_rps + stepCount step_interval_secs e * step_rps) max_rps)
    ∧ (∀ (start_rps step_rps step_interval_secs max_rps : ℕ) (e1 e2 total : ℚ),
      e1 ≤ e2 →
      start_rps + stepCount step_interval_secs e2 * step_rps < u32Mod →
      (LoadPattern.Step start_rps step_rps step_interval_secs max_rps).rps_at e1 total
        ≤ (LoadPattern.Step start_rps step_rps step_interval_secs max_rps).rps_at e2 total)
    ∧ (LoadPattern.Step 100 50 10 300).rps_at 0 60 = 100
    ∧ (LoadPattern.Step 100 50 10 300).rps_at 10 60 = 150
    ∧ (LoadPattern.Step 100 50 10 300).rps_at 50 60 = 300 := by
  have hform : ∀ (s st i m : ℕ) (e total : ℚ),
      s + stepCount i e * st < u32Mod →
      (LoadPattern.Step s st i m).rps_at e total
        = min (s + stepCount i e * st) m := by
    intro s st i m e total hov
    rw [LoadPattern.rps_at, Nat.mod_eq_of_lt hov]
  refine ⟨hform, ?_, ?_, ?_, ?_⟩
  · intro s st i m e1 e2 total h12 hov2
    have hle : stepCount i e1 ≤ stepCount i e2 := stepCount_mono i h12
    have hov1 : s + stepCount i e1 * st < u32Mod := by
      have : s + stepCount i e1 * st ≤ s + stepCount i e2 * st := by
        have := Nat.mul_le_mul_right st hle
        omega
      omega
    rw [hform s st i m e1 total hov1, hform s st i m e2 total hov2]
    apply min_le_min _ (le_refl m)
    have := Nat.mul_le_mul_right st hle
    omega
  · rw [LoadPattern.rps_at]
    norm_num [stepCount, toU32, u32Mod]
  · have hs : stepCount 10 10 = 1 := by
      rw [stepCount]
      norm_num [toU32, u32Mod]
    rw [LoadPattern.rps_at, hs]
    norm_num [u32Mod]
  · have hs : stepCount 10 50 = 5 := by
      rw [stepCount]
      norm_num [toU32, u32Mod]
      decide
    rw [LoadPattern.rps_at, hs]
    norm_num [u32Mod]

/-- C4 witness: the no-overflow formula of `C4_step_pattern_amended`
instantiated at `Step{100, 50, 10, 300}`, `elapsed = 10`. -/
theorem C4_witness :
    100 + stepCount 10 10 * 50 < u32Mod
    ∧ (LoadPattern.Step 100 50 10 300).rps_at 10 60
        = min (100 + stepCount 10 10 * 50) 300 := by
  have hs : stepCount 10 10 = 1 := by
    rw [stepCount]
    norm_num [toU32, u32Mod]
  have hov : 100 + stepCount 10 10 * 50 < u32Mod := by
    rw [hs]; norm_num [u32Mod]
  exact ⟨hov, C4_step_pattern_amended.1 100 50 10 300 10 60 hov⟩

/-- C5 counterexample: the claim says both execution paths spawn
`min(configured_concurrency, 100)` workers.  The max-throughput path
spawns exactly the `Max` pattern's `concurrency` with no cap: at a
configured concurrency of 200 it spawns 200 workers, not
`min(200, 100) = 100`. -/
theorem C5_counterexample :
    maxThroughputWorkerCount 200 = 200
    ∧ min 200 100 = 100
    ∧ maxThroughputWorkerCount 200 ≠ min 200 100 := by
  refine ⟨rfl, by norm_num, by norm_num [maxThroughputWorkerCount]⟩

/-- C5 (amended): the rate-limited path spawns
`min(configured_concurrency, 100)` workers (so never more than 100, and
exactly the configured value when it is within the cap), while the
max-throughput path spawns exactly the `Max` pattern's `concurrency`
value, with no ceiling applied. -/
theorem C5_worker_count_amended :
    (∀ c : ℕ, rateLimitedWorkerCount c = min c 100)
    ∧ (∀ c : ℕ, rateLimitedWorkerCount c ≤ 100)
    ∧ (∀ c : ℕ, c ≤ 100 → rateLimitedWorkerCount c = c)
    ∧ (∀ c : ℕ, maxThroughputWorkerCount c = c) := by
  refine ⟨fun c => rfl, fun c => min_le_right c 100, ?_, fun c => rfl⟩
  intro c h
  simp [rateLimitedWorkerCount, min_eq_left h]

/-- C5 witness: `C5_worker_count_amended` instantiated at the in-cap
configured concurrency 50. -/
theorem C5_witness : (50 : ℕ) ≤ 100 ∧ rateLimitedWorkerCount 50 = 50 :=
  ⟨by norm_num, C5_worker_count_amended.2.2.1 50 (by norm_num)⟩

/-- C6: the cross-round aggregate derives, per test case, a pass rate
`passes / (passes + failures + errors) * 100` with skips excluded from
the denominator (0 when that denominator is 0, and unchanged by skipped
results); `flaky_tests()` returns all entries sorted ascending by rate
(whatever order the hash map yields them in), `stable_tests()` returns
exactly the entries at rate 100 (rates never exceed 100); and for test A
passing twice and test B passing once and failing once the rates are 100
and 50 and `flaky_tests()` lists B before A. -/
theorem C6_aggregate_pass_rates :
    (∀ (summaries : List TestRoundSummary) (tc : TestCase),
        test_pass_rates summaries tc
          = (if 0 < (aggTestStats summaries tc).passes + (aggTestStats summaries tc).failures
                  + (aggTestStats summaries tc).errors
             then ((aggTestStats summaries tc).passes : ℚ)
                 / (((aggTestStats summaries tc).passes + (aggTestStats summaries tc).failures
                      + (aggTestStats summaries tc).errors : ℕ) : ℚ) * 100
             else 0))
    ∧ (∀ (s : TestStats) (d : ℕ), (s.bump TestStatus.Skip d).passRate = s.passRate)
    ∧ (∀ s : TestStats, s.passRate ≤ 100)
    ∧ (∀ entries : List (TestCase × ℚ),
        List.Sorted (fun a b : TestCase × ℚ => a.2 ≤ b.2) (flaky_tests entries)
        ∧ (flaky_tests entries).Perm entries)
    ∧ (∀ entries : List (TestCase × ℚ), (∀ e ∈ entries, e.2 ≤ 100) →
        stable_tests entries = (entries.filter (fun e => e.2 = 100)).map Prod.fst)
    ∧ test_pass_rates
        [TestRoundSummary.new 1 ("gw")
          [TestResult.pass TestCase.HostRouting 100, TestResult.pass TestCase.PathRouting 50],
         TestRoundSummary.new 2 ("gw")
          [TestResult.pass TestCase.HostRouting 100,
           TestResult.fail TestCase.PathRouting 50 ("boom")]]
        TestCase.HostRouting = 100
    ∧ test_pass_rates
        [TestRoundSummary.new 1 ("gw")
          [TestResult.pass TestCase.HostRouting 100, TestResult.pass TestCase.PathRouting 50],
         TestRoundSummary.new 2 ("gw")
          [TestResult.pass TestCase.HostRouting 100,
           TestResult.fail TestCase.PathRouting 50 ("boom")]]
        TestCase.PathRouting = 50
    ∧ flaky_tests [(TestCase.HostRouting, 100), (TestCase.PathRouting, 50)]
        = [(TestCase.PathRouting, 50), (TestCase.HostRouting, 100)]
    ∧ flaky_tests [(TestCase.PathRouting, 50), (TestCase.HostRouting, 100)]
        = [(TestCase.PathRouting, 50), (TestCase.HostRouting, 100)] := by
  refine ⟨fun summaries tc => rfl, fun s d => rfl, TestStats.passRate_le_hundred,
    flaky_tests_sorted_perm, stable_tests_spec, ?_, ?_, ?_, ?_⟩
  · have hA : aggTestStats
        [TestRoundSummary.new 1 ("gw")
          [TestResult.pass TestCase.HostRouting 100, TestResult.pass TestCase.PathRouting 50],
         TestRoundSummary.new 2 ("gw")
          [TestResult.pass TestCase.HostRouting 100,
           TestResult.fail TestCase.PathRouting 50 ("boom")]]
        TestCase.HostRouting = ⟨2, 0, 0, 0, 200⟩ := rfl
    unfold test_pass_rates
    rw [hA]
    norm_num [TestStats.passRate]
  · have hB : aggTestStats
        [TestRoundSummary.new 1 ("gw")
          [TestResult.pass TestCase.HostRouting 100, TestResult.pass TestCase.PathRouting 50],
         TestRoundSummary.new 2 ("gw")
          [TestResult.pass TestCase.HostRouting 100,
           TestResult.fail TestCase.PathRouting 50 ("boom")]]
        TestCase.PathRouting = ⟨1, 1, 0, 0, 100⟩ := rfl
    unfold test_pass_rates
    rw [hB]
    norm_num [TestStats.passRate]
  · norm_num [flaky_tests, List.insertionSort, List.orderedInsert]
  · norm_num [flaky_tests, List.insertionSort, List.orderedInsert]

/-- C6 witness: the stable-tests characterisation of
`C6_aggregate_pass_rates` instantiated at the two-entry rate table of the
concrete example. -/
theorem C6_witness :
    (∀ e ∈ [(TestCase.HostRouting, (100 : ℚ)), (TestCase.PathRouting, 50)], e.2 ≤ 100)
    ∧ stable_tests [(TestCase.HostRouting, (100 : ℚ)), (TestCase.PathRouting, 50)]
        = (([(TestCase.HostRouting, (100 : ℚ)), (TestCase.PathRouting, 50)].filter
              (fun e => e.2 = 100)).map Prod.fst) :=
  ⟨by norm_num, C6_aggregate_pass_rates.2.2.2.2.1 _ (by norm_num)⟩

/-- C7: `ThroughputStats::new(total, successful, duration)` sets
`rps = total/duration_secs`, `success_rps = successful/duration_secs`,
`success_rate = successful/total` (0 when `total = 0`) and, under the
precondition `successful ≤ total`, `failed = total - successful`; at
`(1000, 950, 10 s)` this gives `rps` within 0.1 of 100, `success_rate`
within 0.01 of 0.95, and `failed = 50`. -/
theorem C7_throughput_stats :
    (∀ (total successful : ℕ) (duration_secs : ℚ), successful ≤ total →
      (ThroughputStats.new total successful duration_secs).rps = (total : ℚ) / duration_secs
      ∧ (ThroughputStats.new total successful duration_secs).success_rps
          = (successful : ℚ) / duration_secs
      ∧ (ThroughputStats.new total successful duration_secs).success_rate
          = (if 0 < total then (successful : ℚ) / (total : ℚ) else 0)
      ∧ ((ThroughputStats.new total successful duration_secs).failed_requests : ℤ)
          = (total : ℤ) - (successful : ℤ))
    ∧ |(ThroughputStats.new 1000 950 10).rps - 100| ≤ 1 / 10
    ∧ |(ThroughputStats.new 1000 950 10).success_rate - 95 / 100| ≤ 1 / 100
    ∧ (ThroughputStats.new 1000 950 10).failed_requests = 50 := by
  refine ⟨?_, ?_, ?_, ?_⟩
  · intro total successful d h
    refine ⟨rfl, rfl, rfl, ?_⟩
    simp only [ThroughputStats.new]
    omega
  · have h : (ThroughputStats.new 1000 950 10).rps = ((1000 : ℕ) : ℚ) / (10 : ℚ) := rfl
    rw [h]; norm_num
  · have h : (ThroughputStats.new 1000 950 10).success_rate
        = ((950 : ℕ) : ℚ) / ((1000 : ℕ) : ℚ) := rfl
    rw [h]; norm_num
  · rfl

/-- C7 witness: `C7_throughput_stats` instantiated at
`(total, successful, duration) = (1000, 950, 10 s)`. -/
theorem C7_witness :
    (950 : ℕ) ≤ 1000
    ∧ ((ThroughputStats.new 1000 950 10).failed_requests : ℤ) = (1000 : ℤ) - 950 :=
  ⟨by norm_num, (C7_throughput_stats.1 1000 950 10 (by norm_num)).2.2.2⟩

/-- C8: after any finite sequence of `record_success`, `record_failure`
and `record` calls on a fresh collector, `request_count()` equals
`success_count + fail_count`, the number of stored latency samples equals
`request_count()` (a latency is pushed on every call, failures included),
and `errors.total()` equals `fail_count`. -/
theorem C8_collector_invariants : ∀ ops : List CollectorOp,
    (applyOps MetricsCollector.new ops).request_count
        = (applyOps MetricsCollector.new ops).success_count
          + (applyOps MetricsCollector.new ops).fail_count
    ∧ (applyOps MetricsCollector.new ops).latencies.length
        = (applyOps MetricsCollector.new ops).request_count
    ∧ (applyOps MetricsCollector.new ops).errors.total
        = (applyOps MetricsCollector.new ops).fail_count := by
  intro ops
  have h := applyOps_inv ops MetricsCollector.new (by rfl) (by rfl)
  exact ⟨rfl, h.1, h.2⟩

/-- C9: `TestRoundSummary::new` yields
`passed + failed + skipped + errors = total = results.length`,
`total_duration_ms` the sum of the results' durations, and a
`pass_rate()` of `passed/total*100` with skips counted in the
denominator (0 when `total = 0`) — in contrast with the cross-round
aggregate rate, which drops skips: a round of one pass and one skip has
`pass_rate() = 50`, while per-test stats of one pass and one skip give an
aggregate rate of 100. -/
theorem C9_round_summary_invariants :
    (∀ (round : ℕ) (gw : String) (results : List TestResult),
      (TestRoundSummary.new round gw results).passed
          + (TestRoundSummary.new round gw results).failed
          + (TestRoundSummary.new round gw results).skipped
          + (TestRoundSummary.new round gw results).errors
        = (TestRoundSummary.new round gw results).total
      ∧ (TestRoundSummary.new round gw results).total = results.length
      ∧ (TestRoundSummary.new round gw results).total_duration_ms
          = (results.map (fun r => r.duration_ms)).sum
      ∧ (TestRoundSummary.new round gw results).pass_rate
          = (if results.length = 0 then 0
             else ((results.countP (fun r => r.status == TestStatus.Pass) : ℚ)
                    / (results.length : ℚ)) * 100))
    ∧ (TestRoundSummary.new 1 ("gw")
        [TestResult.pass TestCase.HostRouting 10,
         TestResult.skip TestCase.PathRouting ("s")]).pass_rate = 50
    ∧ TestStats.passRate ⟨1, 0, 1, 0, 10⟩ = 100 := by
  refine ⟨?_, ?_, ?_⟩
  · intro round gw results
    refine ⟨?_, rfl, rfl, rfl⟩
    simp only [TestRoundSummary.new]
    induction results with
    | nil => rfl
    | cons r t ih =>
      simp only [List.countP_cons, List.length_cons]
      cases r.status <;> simp <;> omega
  · have h : (TestRoundSummary.new 1 ("gw")
        [TestResult.pass TestCase.HostRouting 10,
         TestResult.skip TestCase.PathRouting ("s")]).pass_rate
        = (((1 : ℕ) : ℚ) / ((2 : ℕ) : ℚ)) * 100 := rfl
    rw [h]; norm_num
  · norm_num [TestStats.passRate]

/-- C10: the ordinals and the catalog form a bijection with 1–17:
`from_number` inverts `number`, every ordinal in 1–17 parses to a case
with that ordinal, every other ordinal parses to `none`, and `all()`
returns exactly 17 distinct cases whose ordinals are 1, 2, …, 17 in
ascending order. -/
theorem C10_testcase_bijection :
    (∀ tc : TestCase, TestCase.from_number tc.number = some tc)
    ∧ (∀ n : ℕ, 1 ≤ n → n ≤ 17 →
        ∃ tc, TestCase.from_number n = some tc ∧ tc.number = n)
    ∧ (∀ n : ℕ, ¬(1 ≤ n ∧ n ≤ 17) → TestCase.from_number n = none)
    ∧ TestCase.all.length = 17
    ∧ TestCase.all.Nodup
    ∧ TestCase.all.map TestCase.number = (List.range 17).map (fun i => i + 1) := by
  refine ⟨?_, ?_, ?_, ?_, ?_, ?_⟩
  · intro tc; cases tc <;> rfl
  · intro n h1 h2
    interval_cases n <;> exact ⟨_, rfl, rfl⟩
  · intro n hn
    rcases n with _ | n
    · rfl
    · have h18 : 17 ≤ n := by omega
      obtain ⟨m, rfl⟩ := Nat.exists_eq_add_of_le h18
      have h : 17 + m + 1 = m + 18 := by omega
      rw [h, TestCase.from_number_add18]
  · rfl
  · decide
  · decide

/-- C10 witness: `C10_testcase_bijection` instantiated at ordinal 10. -/
theorem C10_witness :
    (1 : ℕ) ≤ 10 ∧ (10 : ℕ) ≤ 17
    ∧ ∃ tc, TestCase.from_number 10 = some tc ∧ tc.number = 10 :=
  ⟨by decide, by decide, C10_testcase_bijection.2.1 10 (by decide) (by decide)⟩
